import Mathlib

set_option maxHeartbeats 1000000

/-! Verification of the `langgraph-a2a-client` provider specification.

The repository ships the tests (`tests/test_a2a_client.py`) and an example
script for the `A2AClientToolProvider` class of the `langgraph_a2a_client`
package; the provider module itself is not among the shipped sources, so every
provider operation below is modelled from the specification (each such
definition's doc comment says so and names the missing source), and checked for
consistency with the shipped tests. -/

abbrev URL := String

/-- A plain string-to-string mapping, the rendering used for headers and for
`model_dump()` results. -/
abbrev Mapping := List (String × String)

/-- An agent card, kept in its rendered-mapping form (the spec treats cards as
opaque descriptors with `to_mapping` semantics). -/
abbrev AgentCard := Mapping

/-- Association-list lookup where the first binding wins; this is the access
model for Python `dict`s throughout. -/
def alookup {α : Type} (k : String) : List (String × α) → Option α
  | [] => none
  | (k', v) :: rest => if k' = k then some v else alookup k rest

/-- Number of bindings for key `k` (a Python `dict` always has at most one;
for the association-list model this is an invariant to prove). -/
def countKey {α : Type} (k : String) (l : List (String × α)) : Nat :=
  l.countP (fun e => e.1 == k)

/-- Modelled from the spec: the duck-typed `auth` construction parameter of
`A2AClientToolProvider`, "model as a tagged variant with exactly the supported
forms enumerated (e.g., \x7bBasic\x7buser,pass\x7d, Bearer\x7btoken\x7d, None\x7d)" (§9). -/
inductive Auth where
  | basic (user password : String)
  | bearer (token : String)
deriving DecidableEq, Repr

/-- Modelled from the spec: a `TransportClient` (an `httpx.AsyncClient` in the
missing `langgraph_a2a_client` module) configured with headers/auth/timeout for
one agent URL. Python object identity is modelled by the `id` field, which the
registry assigns from a creation counter, so distinct creation events yield
clients with distinct `id`s. -/
structure Client where
  id : Nat
  url : URL
  headers : Mapping
  auth : Option Auth
  timeout : Rat
deriving DecidableEq, Repr

/-- Modelled from the spec: the optional push-notification configuration built
from `webhook_url`/`webhook_token` (§6); stored, not otherwise exercised. -/
structure PushConfig where
  url : String
  token : Option String
deriving DecidableEq, Repr

/-- Modelled from the spec: the `headers` construction parameter is "either a
flat header mapping (applies globally to all URLs) or a mapping of AgentURL →
header mapping (applies per-URL only); the two forms are mutually exclusive per
configuration instance" (§6). -/
inductive HeadersParam where
  | absent
  | flat (h : Mapping)
  | perUrl (m : List (URL × Mapping))
deriving DecidableEq, Repr

/-- Modelled from the spec: the state of one `A2AClientToolProvider` instance —
the immutable-after-construction `AuthConfig`, the Per-URL Client Registry
(`_httpx_clients`), the Agent Card Cache (`_discovered_agents`), the
`DiscoveryState` flag (`_initial_discovery_done`) and the client-creation
counter that models Python object identity. -/
structure Provider where
  knownAgentUrls : List URL
  timeout : Rat
  defaultHeaders : Mapping
  headersConfig : List (URL × Mapping)
  auth : Option Auth
  webhookUrl : Option String
  webhookToken : Option String
  pushConfig : Option PushConfig
  httpxClients : List (URL × Client)
  discoveredAgents : List (URL × AgentCard)
  initialDiscoveryDone : Bool
  nextClientId : Nat
deriving DecidableEq, Repr

/-- Modelled from the spec: the recognized construction options of
`A2AClientToolProvider` (§6), every one optional with a default. -/
structure ProviderArgs where
  known_agent_urls : List URL := []
  timeout : Rat := 300
  headers : HeadersParam := .absent
  auth : Option Auth := none
  webhook_url : Option String := none
  webhook_token : Option String := none
deriving Repr

/-- Modelled from the spec: `A2AClientToolProvider` construction — records the
configuration, builds the push config when a webhook URL is given, and starts
with an empty registry, an empty card cache and the discovery flag false;
construction performs no client creation and no I/O. -/
def A2AClientToolProvider (args : ProviderArgs) : Provider :=
  { knownAgentUrls := args.known_agent_urls
    timeout := args.timeout
    defaultHeaders := match args.headers with | .flat h => h | _ => []
    headersConfig := match args.headers with | .perUrl m => m | _ => []
    auth := args.auth
    webhookUrl := args.webhook_url
    webhookToken := args.webhook_token
    pushConfig := args.webhook_url.map (fun u => ⟨u, args.webhook_token⟩)
    httpxClients := []
    discoveredAgents := []
    initialDiscoveryDone := false
    nextClientId := 0 }

/-- Modelled from the spec: the Authentication Resolver (§4.1) — "start from the
global default headers mapping; if the per-URL override mapping has an entry for
this exact URL string, apply its key/value pairs on top (URL-specific keys win
on conflict)". First-binding-wins lookup makes prepending the override the
Python `dict`-update semantics. -/
def resolve_headers (p : Provider) (url : URL) : Mapping :=
  match alookup url p.headersConfig with
  | some ov => ov ++ p.defaultHeaders
  | none => p.defaultHeaders

/-- Modelled from the spec: constructing a fresh `TransportClient` for `url`
with the resolved headers and the global auth/timeout (§4.2); consumes the
provider's next identity. -/
def mkClient (p : Provider) (url : URL) : Client :=
  { id := p.nextClientId
    url := url
    headers := resolve_headers p url
    auth := p.auth
    timeout := p.timeout }

/-- Modelled from the spec: `_ensure_httpx_client` / `ensure_client(url)`
(§4.2) — "if an entry for `url` exists and is open, return it unchanged …
Otherwise invoke the Authentication Resolver for `url`, construct a new
TransportClient …, store it keyed by `url`, and return it." -/
def ensure_client (p : Provider) (url : URL) : Client × Provider :=
  match alookup url p.httpxClients with
  | some c => (c, p)
  | none =>
    let c := mkClient p url
    (c, { p with
            httpxClients := (url, c) :: p.httpxClients
            nextClientId := p.nextClientId + 1 })

/-- Modelled from the spec: the `tools` property exposing the three tool-surface
operations (§4.4, and `test_tools_property`); rendered here as the tool names. -/
def tools (_p : Provider) : List String :=
  ["a2a_discover_agent", "a2a_list_discovered_agents", "a2a_send_message"]

theorem alookup_append_left {α : Type} {k : String} {v : α} {l₁ : List (String × α)}
    (l₂ : List (String × α)) (h : alookup k l₁ = some v) :
    alookup k (l₁ ++ l₂) = some v := by
  induction l₁ with
  | nil => simp [alookup] at h
  | cons hd tl ih =>
    obtain ⟨k', v'⟩ := hd
    by_cases hk : k' = k
    · simp [alookup, hk] at h ⊢
      exact h
    · simp [alookup, hk] at h ⊢
      exact ih h

/-- C1: calling `ensure_client` twice with the same URL returns the identical
client instance (identity modelled by the creation-unique `id` carried in the
`Client` value), and afterwards the registry holds an entry keyed by that
URL, namely that very client. -/
theorem ensure_client_idempotent (p : Provider) (u : URL) :
    (ensure_client (ensure_client p u).2 u).1 = (ensure_client p u).1 ∧
    alookup u (ensure_client (ensure_client p u).2 u).2.httpxClients =
      some (ensure_client p u).1 := by
  cases h : alookup u p.httpxClients with
  | some c =>
    constructor
    · simp [ensure_client, h]
    · simp [ensure_client, h]
  | none =>
    have hlook : alookup u ((u, mkClient p u) :: p.httpxClients) =
        some (mkClient p u) := by
      simp [alookup]
    constructor
    · simp [ensure_client, h, hlook]
    · simp [ensure_client, h, hlook]

/-- C2: the client constructed for a URL with a per-URL header override carries
each override header with its override value (URL-specific keys win over global
keys on conflict, since the override is looked up before the defaults), while
the client constructed for a URL absent from the override map carries exactly
the global default headers. -/
theorem ensure_client_headers (p : Provider) (u u₂ : URL) (ov : Mapping)
    (k v : String)
    (hov : alookup u p.headersConfig = some ov)
    (hkv : alookup k ov = some v)
    (hfresh : alookup u p.httpxClients = none)
    (hno : alookup u₂ p.headersConfig = none)
    (hfresh₂ : alookup u₂ p.httpxClients = none) :
    alookup k (ensure_client p u).1.headers = some v ∧
    (ensure_client p u₂).1.headers = p.defaultHeaders := by
  constructor
  · have : (ensure_client p u).1.headers = ov ++ p.defaultHeaders := by
      simp [ensure_client, hfresh, mkClient, resolve_headers, hov]
    rw [this]
    exact alookup_append_left _ hkv
  · simp [ensure_client, hfresh₂, mkClient, resolve_headers, hno]

/-- Concrete provider configuration mirroring `test_authentication_multiple_urls`
in the shipped tests: two URLs, each with its own header override. -/
def twoUrlProvider : Provider :=
  A2AClientToolProvider
    { known_agent_urls := ["https://agent1.example.com", "https://agent2.example.com"]
      timeout := 10
      headers := .perUrl
        [("https://agent1.example.com", [("X-API-Key", "key-for-agent1")]),
         ("https://agent2.example.com",
            [("X-API-Key", "key-for-agent2"), ("X-Custom", "value")])] }

/-- Witness for C2 at the configuration of `test_authentication_multiple_urls`:
agent1's client carries agent1's key, and a URL with no override entry gets the
(empty) global defaults. -/
theorem ensure_client_headers_witness :
    alookup "X-API-Key" (ensure_client twoUrlProvider "https://agent1.example.com").1.headers
      = some "key-for-agent1" ∧
    (ensure_client twoUrlProvider "https://public.example.com").1.headers
      = twoUrlProvider.defaultHeaders :=
  ensure_client_headers twoUrlProvider "https://agent1.example.com"
    "https://public.example.com" [("X-API-Key", "key-for-agent1")]
    "X-API-Key" "key-for-agent1" (by decide) (by decide) (by decide) (by decide)
    (by decide)

/-- Modelled from the spec: `close()` / `close_all()` (§4.2) — closes every
currently-open client and empties the registry; an individual close failure
(given by the `closeErr` oracle) is recorded and skipped, never aborting the
remaining closures. Returns the emptied provider and the log of close
failures. -/
def close_all (closeErr : Client → Option String) (p : Provider) :
    Provider × List String :=
  ({ p with httpxClients := [] },
   p.httpxClients.foldr
     (fun e acc => match closeErr e.2 with | some msg => msg :: acc | none => acc)
     [])

/-- Modelled from the spec: the scoped session (async context manager, §4.5) —
runs the body, which may itself end in an error, then performs `close_all`
regardless of the body's outcome. -/
def with_session {α : Type} (closeErr : Client → Option String)
    (body : Provider → Provider × Except String α) (p : Provider) :
    Provider × Except String α × List String :=
  let r := body p
  let closed := close_all closeErr r.1
  (closed.1, r.2, closed.2)

/-- C6: after `close_all`, and after a scoped session exits — whatever the body
did, whether it ended in an error, and in particular when it invoked no tool at
all — the client registry is empty, regardless of how many URLs were used. -/
theorem session_exit_registry_empty {α : Type} (closeErr : Client → Option String)
    (body : Provider → Provider × Except String α) (p : Provider) :
    (close_all closeErr p).1.httpxClients = [] ∧
    (with_session closeErr body p).1.httpxClients = [] := by
  constructor
  · rfl
  · simp [with_session, close_all]

/-- C10: the provider is constructible with every parameter defaulted;
immediately after construction the client registry (and the card cache) is
empty and no client identity has been consumed, while the three tools are
already exposed. -/
theorem construction_defaults_no_clients :
    (A2AClientToolProvider {}).httpxClients = [] ∧
    (A2AClientToolProvider {}).discoveredAgents = [] ∧
    (A2AClientToolProvider {}).nextClientId = 0 ∧
    tools (A2AClientToolProvider {}) =
      ["a2a_discover_agent", "a2a_list_discovered_agents", "a2a_send_message"] ∧
    (tools (A2AClientToolProvider {})).length = 3 := by
  refine ⟨rfl, rfl, rfl, rfl, rfl⟩

/-- Modelled from the spec: the typed discovery failure (§7), carrying the
offending URL and the underlying cause. -/
structure DiscoveryError where
  url : URL
  cause : String
deriving DecidableEq, Repr

/-- `Except` success test, used to count successful discoveries. -/
def isOkE {ε α : Type} : Except ε α → Bool
  | .ok _ => true
  | .error _ => false

/-- Modelled from the spec: `_discover_agent_card` / `discover(url)` (§4.3) with
the cache-hit short-circuit policy — on a hit return the cached card without
network access; on a miss obtain the transport client, perform the fetch (the
network is the `fetch` oracle), cache the card on success, and on failure write
no cache entry and report a `DiscoveryError` carrying the URL and cause. -/
def discover (p : Provider) (fetch : URL → Except String AgentCard) (url : URL) :
    Except DiscoveryError AgentCard × Provider :=
  match alookup url p.discoveredAgents with
  | some card => (.ok card, p)
  | none =>
    let p₁ := (ensure_client p url).2
    match fetch url with
    | .ok card =>
      (.ok card, { p₁ with discoveredAgents := (url, card) :: p₁.discoveredAgents })
    | .error msg => (.error ⟨url, msg⟩, p₁)

/-- Modelled from the spec: `bulk_discover(urls)` (§4.3) — discover each URL in
order; an individual failure must not abort the remaining URLs, so the fold
simply carries the state on. -/
def bulk_discover (p : Provider) (fetch : URL → Except String AgentCard)
    (urls : List URL) : Provider :=
  urls.foldl (fun acc u => (discover acc fetch u).2) p

/-- Modelled from the spec: the `DiscoveryState` guard — when the
initial-discovery flag is still false, run `bulk_discover` over the configured
known-agent URLs and flip the flag to true, exactly once. -/
def ensure_discovered (p : Provider) (fetch : URL → Except String AgentCard) :
    Provider :=
  if p.initialDiscoveryDone then p
  else
    let p' := bulk_discover p fetch p.knownAgentUrls
    { p' with initialDiscoveryDone := true }

/-- The uniform tool-surface result mapping (§4.4): a field is present in the
mapping exactly when its `Option` is `some`. -/
structure ToolResult where
  status : String
  url : Option String := none
  target_agent_url : Option String := none
  agent_card : Option AgentCard := none
  agents : Option (List AgentCard) := none
  total_count : Option Nat := none
  message_id : Option String := none
  response : Option Mapping := none
  error : Option String := none
deriving DecidableEq, Repr

/-- Modelled from the spec: the `a2a_discover_agent(url)` tool (§4.4) — calls
`discover`; every underlying failure is caught and converted to the uniform
error shape with the requested URL; success carries the rendered card. Being a
total function, it models "never raises outward". -/
def a2a_discover_agent (p : Provider) (fetch : URL → Except String AgentCard)
    (url : URL) : ToolResult × Provider :=
  match discover p fetch url with
  | (.ok card, p') =>
    ({ status := "success", url := some url, agent_card := some card }, p')
  | (.error e, p') =>
    ({ status := "error", url := some url, error := some e.cause }, p')

/-- Modelled from the spec: the `a2a_list_discovered_agents()` tool (§4.4) —
triggers initial bulk discovery if still pending, then returns the snapshot of
cached cards and their count. -/
def a2a_list_discovered_agents (p : Provider)
    (fetch : URL → Except String AgentCard) : ToolResult × Provider :=
  let p' := ensure_discovered p fetch
  ({ status := "success"
     total_count := some p'.discoveredAgents.length
     agents := some (p'.discoveredAgents.map (·.2)) }, p')

/-- Modelled from the spec: the `a2a_send_message` tool (§4.4) — resolves the
target agent card (discovery failure is caught), obtains the transport client,
sends the message through the `sendO` network oracle and consumes the response
stream; an empty stream is a failure; `message_id` defaults to the freshly
generated `genId` when not supplied. All failures are converted to the uniform
error shape carrying the target URL. -/
def a2a_send_message (p : Provider) (fetch : URL → Except String AgentCard)
    (sendO : URL → String → Except String (List Mapping)) (genId : String)
    (message_text : String) (target_agent_url : URL) (message_id : Option String) :
    ToolResult × Provider :=
  match discover p fetch target_agent_url with
  | (.error e, p') =>
    ({ status := "error", target_agent_url := some target_agent_url,
       error := some e.cause }, p')
  | (.ok _card, p') =>
    let r := ensure_client p' target_agent_url
    let mid := message_id.getD genId
    match sendO target_agent_url message_text with
    | .error msg =>
      ({ status := "error", target_agent_url := some target_agent_url,
         error := some msg }, r.2)
    | .ok [] =>
      ({ status := "error", target_agent_url := some target_agent_url,
         error := some "empty response stream" }, r.2)
    | .ok (resp :: _) =>
      ({ status := "success", target_agent_url := some target_agent_url,
         message_id := some mid, response := some resp }, r.2)

/-- C5: `a2a_discover_agent(url)` always reports the requested URL; when the
underlying discovery succeeds it reports status `"success"` with the agent card,
and when it fails it reports status `"error"` with the error message. -/
theorem a2a_discover_agent_shape (p : Provider)
    (fetch : URL → Except String AgentCard) (url : URL) :
    (a2a_discover_agent p fetch url).1.url = some url ∧
    (∀ card, (discover p fetch url).1 = Except.ok card →
      (a2a_discover_agent p fetch url).1.status = "success" ∧
      (a2a_discover_agent p fetch url).1.agent_card = some card) ∧
    (∀ e, (discover p fetch url).1 = Except.error e →
      (a2a_discover_agent p fetch url).1.status = "error" ∧
      (a2a_discover_agent p fetch url).1.error = some e.cause) := by
  rcases hd : discover p fetch url with ⟨res, p'⟩
  cases res with
  | ok card => refine ⟨?_, ?_, ?_⟩ <;> simp [a2a_discover_agent, hd]
  | error e => refine ⟨?_, ?_, ?_⟩ <;> simp [a2a_discover_agent, hd]

/-- A fresh provider with an empty card cache, used as a concrete instance. -/
def pFresh : Provider := A2AClientToolProvider {}

/-- The agent card of the shipped tests' `mock_agent_card`, in rendered form. -/
def testCard : AgentCard :=
  [("name", "Test Agent"), ("description", "A test agent"),
   ("url", "https://example.com/agent")]

/-- A network oracle whose discovery always succeeds with `testCard`. -/
def fetchOk : URL → Except String AgentCard := fun _ => .ok testCard

/-- A network oracle whose discovery always fails, as in
`test_discover_agent_error`. -/
def fetchErr : URL → Except String AgentCard := fun _ => .error "Connection error"

/-- Witness for C5: at a fresh provider, a succeeding oracle yields the
success shape and a failing oracle yields the error shape. -/
theorem a2a_discover_agent_shape_witness :
    (a2a_discover_agent pFresh fetchOk "https://example.com/new-agent").1.status
        = "success" ∧
    (a2a_discover_agent pFresh fetchOk "https://example.com/new-agent").1.agent_card
        = some testCard ∧
    (a2a_discover_agent pFresh fetchErr "https://example.com/bad-agent").1.status
        = "error" ∧
    (a2a_discover_agent pFresh fetchErr "https://example.com/bad-agent").1.error
        = some "Connection error" :=
  ⟨((a2a_discover_agent_shape pFresh fetchOk "https://example.com/new-agent").2.1
      testCard rfl).1,
   ((a2a_discover_agent_shape pFresh fetchOk "https://example.com/new-agent").2.1
      testCard rfl).2,
   ((a2a_discover_agent_shape pFresh fetchErr "https://example.com/bad-agent").2.2
      ⟨"https://example.com/bad-agent", "Connection error"⟩ rfl).1,
   ((a2a_discover_agent_shape pFresh fetchErr "https://example.com/bad-agent").2.2
      ⟨"https://example.com/bad-agent", "Connection error"⟩ rfl).2⟩

/-- C9: when the discovery fetch fails on a cache miss, no entry is written to
the agent card cache, and the failure is reported as a `DiscoveryError`
carrying the URL and the underlying cause. -/
theorem discover_failure_no_cache (p : Provider)
    (fetch : URL → Except String AgentCard) (url : URL) (msg : String)
    (hmiss : alookup url p.discoveredAgents = none)
    (hfail : fetch url = Except.error msg) :
    (discover p fetch url).1 = Except.error ⟨url, msg⟩ ∧
    (discover p fetch url).2.discoveredAgents = p.discoveredAgents := by
  have hreg : ((ensure_client p url).2).discoveredAgents = p.discoveredAgents := by
    cases h : alookup url p.httpxClients <;> simp [ensure_client, h]
  constructor <;> simp [discover, hmiss, hfail, hreg]

/-- Witness for C9: a fresh provider and the failing oracle of
`test_discover_agent_error`. -/
theorem discover_failure_no_cache_witness :
    (discover pFresh fetchErr "https://example.com/bad-agent").1
        = Except.error ⟨"https://example.com/bad-agent", "Connection error"⟩ ∧
    (discover pFresh fetchErr "https://example.com/bad-agent").2.discoveredAgents
        = pFresh.discoveredAgents :=
  discover_failure_no_cache pFresh fetchErr "https://example.com/bad-agent"
    "Connection error" rfl rfl

/-- C4: each of the three tool-surface operations is a total function whose
result is either the success shape or the error shape with an error message
present — no underlying failure escapes the tool boundary — and the URL-bearing
operations always echo the requested URL. -/
theorem tool_surface_no_raise (p : Provider)
    (fetch : URL → Except String AgentCard)
    (sendO : URL → String → Except String (List Mapping))
    (genId message_text : String) (url target_agent_url : URL)
    (message_id : Option String) :
    ((a2a_discover_agent p fetch url).1.status = "success" ∨
      ((a2a_discover_agent p fetch url).1.status = "error" ∧
        (a2a_discover_agent p fetch url).1.error ≠ none)) ∧
    (a2a_discover_agent p fetch url).1.url = some url ∧
    ((a2a_list_discovered_agents p fetch).1.status = "success" ∨
      ((a2a_list_discovered_agents p fetch).1.status = "error" ∧
        (a2a_list_discovered_agents p fetch).1.error ≠ none)) ∧
    ((a2a_send_message p fetch sendO genId message_text target_agent_url
        message_id).1.status = "success" ∨
      ((a2a_send_message p fetch sendO genId message_text target_agent_url
          message_id).1.status = "error" ∧
        (a2a_send_message p fetch sendO genId message_text target_agent_url
          message_id).1.error ≠ none)) ∧
    (a2a_send_message p fetch sendO genId message_text target_agent_url
        message_id).1.target_agent_url = some target_agent_url := by
  refine ⟨?_, ?_, ?_, ?_, ?_⟩
  · rcases hd : discover p fetch url with ⟨res, p'⟩
    cases res with
    | ok card => left; simp [a2a_discover_agent, hd]
    | error e => right; simp [a2a_discover_agent, hd]
  · rcases hd : discover p fetch url with ⟨res, p'⟩
    cases res <;> simp [a2a_discover_agent, hd]
  · left; rfl
  · rcases hd : discover p fetch target_agent_url with ⟨res, p'⟩
    cases res with
    | error e => right; simp [a2a_send_message, hd]
    | ok card =>
      cases hs : sendO target_agent_url message_text with
      | error msg => right; simp [a2a_send_message, hd, hs]
      | ok resps =>
        cases resps with
        | nil => right; simp [a2a_send_message, hd, hs]
        | cons r rs => left; simp [a2a_send_message, hd, hs]
  · rcases hd : discover p fetch target_agent_url with ⟨res, p'⟩
    cases res with
    | error e => simp [a2a_send_message, hd]
    | ok card =>
      cases hs : sendO target_agent_url message_text with
      | error msg => simp [a2a_send_message, hd, hs]
      | ok resps => cases resps <;> simp [a2a_send_message, hd, hs]

theorem bulk_discover_length (fetch : URL → Except String AgentCard) :
    ∀ (urls : List URL) (p : Provider), urls.Nodup →
      (∀ u ∈ urls, alookup u p.discoveredAgents = none) →
      (bulk_discover p fetch urls).discoveredAgents.length =
        p.discoveredAgents.length + urls.countP (fun u => isOkE (fetch u)) := by
  intro urls
  induction urls with
  | nil => intro p _ _; simp [bulk_discover]
  | cons u us ih =>
    intro p hnd hmiss
    have hstep : bulk_discover p fetch (u :: us) =
        bulk_discover (discover p fetch u).2 fetch us := by
      simp [bulk_discover]
    have hmu : alookup u p.discoveredAgents = none := hmiss u (by simp)
    have hreg : ((ensure_client p u).2).discoveredAgents = p.discoveredAgents := by
      cases h : alookup u p.httpxClients <;> simp [ensure_client, h]
    have hnotmem : u ∉ us := (List.nodup_cons.mp hnd).1
    have hndus : us.Nodup := (List.nodup_cons.mp hnd).2
    cases hf : fetch u with
    | ok card =>
      have hd2 : (discover p fetch u).2.discoveredAgents =
          (u, card) :: p.discoveredAgents := by
        simp [discover, hmu, hf, hreg]
      have hmiss' : ∀ u' ∈ us, alookup u' (discover p fetch u).2.discoveredAgents = none := by
        intro u' hu'
        rw [hd2]
        have hne : u ≠ u' := fun he => hnotmem (he ▸ hu')
        simp [alookup, hne]
        exact hmiss u' (List.mem_cons_of_mem _ hu')
      rw [hstep, ih (discover p fetch u).2 hndus hmiss', hd2]
      simp [List.countP_cons, hf, isOkE]
      omega
    | error msg =>
      have hd2 : (discover p fetch u).2.discoveredAgents = p.discoveredAgents := by
        simp [discover, hmu, hf, hreg]
      have hmiss' : ∀ u' ∈ us, alookup u' (discover p fetch u).2.discoveredAgents = none := by
        intro u' hu'
        rw [hd2]
        exact hmiss u' (List.mem_cons_of_mem _ hu')
      rw [hstep, ih (discover p fetch u).2 hndus hmiss', hd2]
      simp [List.countP_cons, hf, isOkE]

/-- C7: `a2a_list_discovered_agents`, invoked while the initial-discovery flag
is still false on an empty cache, triggers bulk discovery of the configured
known-agent URLs and reports `total_count` equal to the number of URLs whose
discovery succeeded — which is at most, and possibly less than, the configured
count, since individual failures are tolerated. -/
theorem list_discovered_total_count (p : Provider)
    (fetch : URL → Except String AgentCard)
    (hflag : p.initialDiscoveryDone = false)
    (hempty : p.discoveredAgents = [])
    (hnd : p.knownAgentUrls.Nodup) :
    (a2a_list_discovered_agents p fetch).1.status = "success" ∧
    (a2a_list_discovered_agents p fetch).1.total_count =
      some (p.knownAgentUrls.countP (fun u => isOkE (fetch u))) ∧
    p.knownAgentUrls.countP (fun u => isOkE (fetch u)) ≤ p.knownAgentUrls.length := by
  have hmiss : ∀ u ∈ p.knownAgentUrls, alookup u p.discoveredAgents = none := by
    intro u _
    rw [hempty]
    rfl
  have hlen := bulk_discover_length fetch p.knownAgentUrls p hnd hmiss
  have hens : (ensure_discovered p fetch).discoveredAgents =
      (bulk_discover p fetch p.knownAgentUrls).discoveredAgents := by
    simp [ensure_discovered, hflag]
  refine ⟨rfl, ?_, List.countP_le_length _⟩
  show some (ensure_discovered p fetch).discoveredAgents.length = _
  rw [hens, hlen, hempty]
  simp

/-- Provider configured with two known agent URLs and nothing else. -/
def pTwo : Provider :=
  A2AClientToolProvider { known_agent_urls := ["https://a", "https://b"] }

/-- A network oracle for which discovery of `https://a` succeeds and discovery
of any other URL fails. -/
def fetchMixed : URL → Except String AgentCard := fun u =>
  if u = "https://a" then .ok [("name", "A")] else .error "down"

/-- Witness for C7: with two configured URLs of which one discovery fails, the
reported `total_count` is 1. -/
theorem list_discovered_total_count_witness :
    (a2a_list_discovered_agents pTwo fetchMixed).1.total_count = some 1 := by
  have h := list_discovered_total_count pTwo fetchMixed rfl rfl (by decide)
  rw [h.2.1]
  rfl

/-- C8: when `a2a_send_message` succeeds, its result carries the target agent
URL, the supplied `message_id` when one was given — otherwise the freshly
generated one — and the first response rendered as a mapping. -/
theorem send_message_result_fields (p : Provider)
    (fetch : URL → Except String AgentCard)
    (sendO : URL → String → Except String (List Mapping))
    (genId message_text : String) (target_agent_url : URL)
    (message_id : Option String)
    (hs : (a2a_send_message p fetch sendO genId message_text target_agent_url
            message_id).1.status = "success") :
    (a2a_send_message p fetch sendO genId message_text target_agent_url
        message_id).1.target_agent_url = some target_agent_url ∧
    (a2a_send_message p fetch sendO genId message_text target_agent_url
        message_id).1.message_id = some (message_id.getD genId) ∧
    (a2a_send_message p fetch sendO genId message_text target_agent_url
        message_id).1.response ≠ none ∧
    (∀ m, message_id = some m →
      (a2a_send_message p fetch sendO genId message_text target_agent_url
          message_id).1.message_id = some m) ∧
    (message_id = none →
      (a2a_send_message p fetch sendO genId message_text target_agent_url
          message_id).1.message_id = some genId) := by
  rcases hd : discover p fetch target_agent_url with ⟨res, p'⟩
  cases res with
  | error e =>
    exfalso
    simp [a2a_send_message, hd] at hs
  | ok card =>
    cases hsend : sendO target_agent_url message_text with
    | error msg =>
      exfalso
      simp [a2a_send_message, hd, hsend] at hs
    | ok resps =>
      cases resps with
      | nil =>
        exfalso
        simp [a2a_send_message, hd, hsend] at hs
      | cons r rs =>
        refine ⟨by simp [a2a_send_message, hd, hsend],
          by simp [a2a_send_message, hd, hsend], by simp [a2a_send_message, hd, hsend],
          ?_, ?_⟩
        · intro m hm
          simp [a2a_send_message, hd, hsend, hm]
        · intro hm
          simp [a2a_send_message, hd, hsend, hm]

/-- A send oracle that always answers with one response mapping. -/
def sendOk : URL → String → Except String (List Mapping) := fun _ _ =>
  .ok [[("content", "Response from agent")]]

/-- Witness for C8: the scenario of `test_send_message_success` (supplied id
`test-123`) and the generated-id variant with no supplied id. -/
theorem send_message_result_fields_witness :
    (a2a_send_message pFresh fetchOk sendOk "gen-uuid" "Hello"
        "https://example.com/agent" (some "test-123")).1.message_id
      = some "test-123" ∧
    (a2a_send_message pFresh fetchOk sendOk "gen-uuid" "Hello"
        "https://example.com/agent" none).1.message_id = some "gen-uuid" ∧
    (a2a_send_message pFresh fetchOk sendOk "gen-uuid" "Hello"
        "https://example.com/agent" (some "test-123")).1.target_agent_url
      = some "https://example.com/agent" :=
  ⟨(send_message_result_fields pFresh fetchOk sendOk "gen-uuid" "Hello"
      "https://example.com/agent" (some "test-123") rfl).2.1,
   (send_message_result_fields pFresh fetchOk sendOk "gen-uuid" "Hello"
      "https://example.com/agent" none rfl).2.1,
   (send_message_result_fields pFresh fetchOk sendOk "gen-uuid" "Hello"
      "https://example.com/agent" (some "test-123") rfl).1⟩

/-- Modelled from the spec: the program counter of one cooperative task running
`ensure_client(url)` (§4.2, §5, §9) — the atomic Python registry operations are
split at the suspension point where the transport client is constructed:
`start` (about to acquire the creation guard), `entered` (guard held, about to
run the registry check), `midCreate c` (check missed; the client `c` has been
constructed during the awaited suspension but not yet stored), `done` (call
returned). -/
inductive TaskPC where
  | start
  | entered
  | midCreate (c : Client)
  | done
deriving DecidableEq, Repr

/-- One cooperative caller of `ensure_client`: its program counter and, once
finished, the client its call returned. -/
structure TaskState where
  pc : TaskPC
  result : Option Client
deriving DecidableEq, Repr

/-- Modelled from the spec: the shared state of two interleaved
`ensure_client(url)` invocations on one provider — the provider, the per-key
creation guard of §9 ("a per-key initialization guard … protecting the
check-then-insert sequence"), and the two tasks. -/
structure Sys where
  prov : Provider
  lock : Option Bool
  task0 : TaskState
  task1 : TaskState
deriving DecidableEq, Repr

def Sys.task (s : Sys) : Bool → TaskState
  | false => s.task0
  | true => s.task1

def Sys.setTask (s : Sys) : Bool → TaskState → Sys
  | false, t => { s with task0 := t }
  | true, t => { s with task1 := t }

def Sys.withLock (s : Sys) (l : Option Bool) : Sys := { s with lock := l }

def Sys.withProv (s : Sys) (q : Provider) : Sys := { s with prov := q }

/-- Modelled from the spec: one cooperative scheduling step giving task `tid`
the processor (§5). A task at `start` acquires the guard when it is free and is
otherwise blocked; with the guard held it performs the registry check — a hit
completes the call with the cached client, a miss constructs the client (the
suspension point) — and a constructed client is then stored and returned,
releasing the guard. The check/construct/store decomposition is exactly
`ensure_client`'s miss branch split at the await. -/
def step (url : URL) (s : Sys) (tid : Bool) : Sys :=
  match (s.task tid).pc with
  | .start =>
    match s.lock with
    | none => (s.setTask tid { s.task tid with pc := .entered }).withLock (some tid)
    | some _ => s
  | .entered =>
    if s.lock = some tid then
      match alookup url s.prov.httpxClients with
      | some c => (s.setTask tid { pc := .done, result := some c }).withLock none
      | none =>
        (s.setTask tid
            { s.task tid with pc := .midCreate (mkClient s.prov url) }).withProv
          { s.prov with nextClientId := s.prov.nextClientId + 1 }
    else s
  | .midCreate c =>
    if s.lock = some tid then
      ((s.setTask tid { pc := .done, result := some c }).withLock none).withProv
        { s.prov with httpxClients := (url, c) :: s.prov.httpxClients }
    else s
  | .done => s

/-- Run a cooperative schedule: at each instant the scheduler names the task to
advance. -/
def run (url : URL) (s : Sys) (sched : List Bool) : Sys :=
  sched.foldl (step url) s

/-- Both callers poised to run `ensure_client` on provider `p`. -/
def initSys (p : Provider) : Sys :=
  { prov := p
    lock := none
    task0 := { pc := .start, result := none }
    task1 := { pc := .start, result := none } }

/-- A task is inside the guarded check-then-insert section. -/
def busy (t : TaskState) : Prop := t.pc = .entered ∨ ∃ c, t.pc = .midCreate c

@[simp] theorem task_setTask_self (s : Sys) (tid : Bool) (t : TaskState) :
    (s.setTask tid t).task tid = t := by cases tid <;> rfl

theorem task_setTask_ne (s : Sys) {b tid : Bool} (t : TaskState) (h : b ≠ tid) :
    (s.setTask tid t).task b = s.task b := by
  cases tid <;> cases b <;> simp_all [Sys.setTask, Sys.task]

@[simp] theorem prov_setTask (s : Sys) (tid : Bool) (t : TaskState) :
    (s.setTask tid t).prov = s.prov := by cases tid <;> rfl

@[simp] theorem lock_setTask (s : Sys) (tid : Bool) (t : TaskState) :
    (s.setTask tid t).lock = s.lock := by cases tid <;> rfl

@[simp] theorem task_withLock (s : Sys) (l : Option Bool) (b : Bool) :
    (s.withLock l).task b = s.task b := by cases b <;> rfl

@[simp] theorem prov_withLock (s : Sys) (l : Option Bool) :
    (s.withLock l).prov = s.prov := rfl

@[simp] theorem lock_withLock (s : Sys) (l : Option Bool) :
    (s.withLock l).lock = l := rfl

@[simp] theorem task_withProv (s : Sys) (q : Provider) (b : Bool) :
    (s.withProv q).task b = s.task b := by cases b <;> rfl

@[simp] theorem prov_withProv (s : Sys) (q : Provider) :
    (s.withProv q).prov = q := rfl

@[simp] theorem lock_withProv (s : Sys) (q : Provider) :
    (s.withProv q).lock = s.lock := rfl

theorem alookup_none_countKey {α : Type} {k : String} {l : List (String × α)}
    (h : alookup k l = none) : countKey k l = 0 := by
  induction l with
  | nil => rfl
  | cons hd tl ih =>
    obtain ⟨k', v⟩ := hd
    by_cases hk : k' = k
    · simp [alookup, hk] at h
    · simp [alookup, hk] at h
      have htl := ih h
      unfold countKey at htl ⊢
      rw [List.countP_cons, htl]
      simp [hk]

/-- The creation-race invariant of the two-caller system: the guard is owned by
any task inside the guarded section (so at most one is); a task that has
constructed but not stored its client saw, and still sees, no registry entry
for the key; a returned result is exactly the registry's entry for the key; a
task is done exactly when it has a result; and the registry holds at most one
entry for the key. -/
structure RaceInv (url : URL) (s : Sys) : Prop where
  lockOwn : ∀ b, busy (s.task b) → s.lock = some b
  midFresh : ∀ b c, (s.task b).pc = .midCreate c →
    alookup url s.prov.httpxClients = none
  resLook : ∀ b c, (s.task b).result = some c →
    alookup url s.prov.httpxClients = some c
  doneRes : ∀ b, ((s.task b).pc = .done ↔ (s.task b).result.isSome)
  oneKey : countKey url s.prov.httpxClients ≤ 1

theorem RaceInv_step (url : URL) (s : Sys) (tid : Bool) (h : RaceInv url s) :
    RaceInv url (step url s tid) := by
  obtain ⟨h1, h2, h3, h4, h5⟩ := h
  cases hpc : (s.task tid).pc with
  | start =>
    cases hlock : s.lock with
    | some b₀ =>
      have hs : step url s tid = s := by simp [step, hpc, hlock]
      rw [hs]
      exact ⟨h1, h2, h3, h4, h5⟩
    | none =>
      have hs : step url s tid =
          (s.setTask tid { s.task tid with pc := .entered }).withLock (some tid) := by
        simp [step, hpc, hlock]
      have hres : (s.task tid).result = none := by
        have hiff := h4 tid
        rw [hpc] at hiff
        cases hr : (s.task tid).result with
        | none => rfl
        | some c =>
          rw [hr] at hiff
          simp at hiff
      rw [hs]
      refine ⟨?_, ?_, ?_, ?_, ?_⟩
      · intro b hb
        by_cases hbt : b = tid
        · subst hbt
          simp
        · exfalso
          rw [task_withLock, task_setTask_ne _ _ hbt] at hb
          have hl' := h1 b hb
          rw [hlock] at hl'
          exact Option.noConfusion hl'
      · intro b c hc
        by_cases hbt : b = tid
        · subst hbt
          rw [task_withLock, task_setTask_self] at hc
          simp at hc
        · rw [task_withLock, task_setTask_ne _ _ hbt] at hc
          simp only [prov_withLock, prov_setTask]
          exact h2 b c hc
      · intro b c hc
        by_cases hbt : b = tid
        · subst hbt
          rw [task_withLock, task_setTask_self] at hc
          simp [hres] at hc
        · rw [task_withLock, task_setTask_ne _ _ hbt] at hc
          simp only [prov_withLock, prov_setTask]
          exact h3 b c hc
      · intro b
        by_cases hbt : b = tid
        · subst hbt
          rw [task_withLock, task_setTask_self]
          simp [hres]
        · rw [task_withLock, task_setTask_ne _ _ hbt]
          exact h4 b
      · simp only [prov_withLock, prov_setTask]
        exact h5
  | entered =>
    by_cases hl : s.lock = some tid
    · cases hhit : alookup url s.prov.httpxClients with
      | some c₀ =>
        have hs : step url s tid =
            (s.setTask tid { pc := .done, result := some c₀ }).withLock none := by
          simp [step, hpc, hl, hhit]
        rw [hs]
        refine ⟨?_, ?_, ?_, ?_, ?_⟩
        · intro b hb
          exfalso
          by_cases hbt : b = tid
          · subst hbt
            rw [task_withLock, task_setTask_self] at hb
            rcases hb with hbb | ⟨c, hbb⟩ <;> simp at hbb
          · rw [task_withLock, task_setTask_ne _ _ hbt] at hb
            have hb' := h1 b hb
            rw [hl] at hb'
            injection hb' with hh
            exact hbt hh.symm
        · intro b c hc
          exfalso
          by_cases hbt : b = tid
          · subst hbt
            rw [task_withLock, task_setTask_self] at hc
            simp at hc
          · rw [task_withLock, task_setTask_ne _ _ hbt] at hc
            have hb' := h1 b (Or.inr ⟨c, hc⟩)
            rw [hl] at hb'
            injection hb' with hh
            exact hbt hh.symm
        · intro b c hc
          by_cases hbt : b = tid
          · subst hbt
            rw [task_withLock, task_setTask_self] at hc
            simp at hc
            simp only [prov_withLock, prov_setTask]
            rw [hhit, hc]
          · rw [task_withLock, task_setTask_ne _ _ hbt] at hc
            simp only [prov_withLock, prov_setTask]
            exact h3 b c hc
        · intro b
          by_cases hbt : b = tid
          · subst hbt
            rw [task_withLock, task_setTask_self]
            simp
          · rw [task_withLock, task_setTask_ne _ _ hbt]
            exact h4 b
        · simp only [prov_withLock, prov_setTask]
          exact h5
      | none =>
        have hs : step url s tid =
            (s.setTask tid
                { s.task tid with pc := .midCreate (mkClient s.prov url) }).withProv
              { s.prov with nextClientId := s.prov.nextClientId + 1 } := by
          simp [step, hpc, hl, hhit]
        have hres : (s.task tid).result = none := by
          have hiff := h4 tid
          rw [hpc] at hiff
          cases hr : (s.task tid).result with
          | none => rfl
          | some c =>
            rw [hr] at hiff
            simp at hiff
        rw [hs]
        refine ⟨?_, ?_, ?_, ?_, ?_⟩
        · intro b hb
          by_cases hbt : b = tid
          · subst hbt
            simp only [lock_withProv, lock_setTask]
            exact hl
          · exfalso
            rw [task_withProv, task_setTask_ne _ _ hbt] at hb
            have hb' := h1 b hb
            rw [hl] at hb'
            injection hb' with hh
            exact hbt hh.symm
        · intro b c hc
          by_cases hbt : b = tid
          · subst hbt
            simp only [prov_withProv]
            exact hhit
          · rw [task_withProv, task_setTask_ne _ _ hbt] at hc
            simp only [prov_withProv]
            exact h2 b c hc
        · intro b c hc
          by_cases hbt : b = tid
          · subst hbt
            rw [task_withProv, task_setTask_self] at hc
            simp [hres] at hc
          · rw [task_withProv, task_setTask_ne _ _ hbt] at hc
            simp only [prov_withProv]
            exact h3 b c hc
        · intro b
          by_cases hbt : b = tid
          · subst hbt
            rw [task_withProv, task_setTask_self]
            simp [hres]
          · rw [task_withProv, task_setTask_ne _ _ hbt]
            exact h4 b
        · simp only [prov_withProv]
          exact h5
    · have hs : step url s tid = s := by simp [step, hpc, hl]
      rw [hs]
      exact ⟨h1, h2, h3, h4, h5⟩
  | midCreate c₀ =>
    by_cases hl : s.lock = some tid
    · have hs : step url s tid =
          ((s.setTask tid { pc := .done, result := some c₀ }).withLock none).withProv
            { s.prov with httpxClients := (url, c₀) :: s.prov.httpxClients } := by
        simp [step, hpc, hl]
      have hnone : alookup url s.prov.httpxClients = none := h2 tid c₀ hpc
      have hcount0 : countKey url s.prov.httpxClients = 0 := alookup_none_countKey hnone
      rw [hs]
      refine ⟨?_, ?_, ?_, ?_, ?_⟩
      · intro b hb
        exfalso
        by_cases hbt : b = tid
        · subst hbt
          rw [task_withProv, task_withLock, task_setTask_self] at hb
          rcases hb with hbb | ⟨c, hbb⟩ <;> simp at hbb
        · rw [task_withProv, task_withLock, task_setTask_ne _ _ hbt] at hb
          have hb' := h1 b hb
          rw [hl] at hb'
          injection hb' with hh
          exact hbt hh.symm
      · intro b c hc
        exfalso
        by_cases hbt : b = tid
        · subst hbt
          rw [task_withProv, task_withLock, task_setTask_self] at hc
          simp at hc
        · rw [task_withProv, task_withLock, task_setTask_ne _ _ hbt] at hc
          have hb' := h1 b (Or.inr ⟨c, hc⟩)
          rw [hl] at hb'
          injection hb' with hh
          exact hbt hh.symm
      · intro b c hc
        by_cases hbt : b = tid
        · subst hbt
          rw [task_withProv, task_withLock, task_setTask_self] at hc
          simp at hc
          simp only [prov_withProv]
          show alookup url ((url, c₀) :: s.prov.httpxClients) = some c
          simp [alookup, hc]
        · rw [task_withProv, task_withLock, task_setTask_ne _ _ hbt] at hc
          exfalso
          have hlk := h3 b c hc
          rw [hnone] at hlk
          exact Option.noConfusion hlk
      · intro b
        by_cases hbt : b = tid
        · subst hbt
          rw [task_withProv, task_withLock, task_setTask_self]
          simp
        · rw [task_withProv, task_withLock, task_setTask_ne _ _ hbt]
          exact h4 b
      · simp only [prov_withProv]
        show countKey url ((url, c₀) :: s.prov.httpxClients) ≤ 1
        unfold countKey at hcount0 ⊢
        rw [List.countP_cons, hcount0]
        simp
    · have hs : step url s tid = s := by simp [step, hpc, hl]
      rw [hs]
      exact ⟨h1, h2, h3, h4, h5⟩
  | done =>
    have hs : step url s tid = s := by simp [step, hpc]
    rw [hs]
    exact ⟨h1, h2, h3, h4, h5⟩

theorem RaceInv_run (url : URL) (sched : List Bool) :
    ∀ s : Sys, RaceInv url s → RaceInv url (run url s sched) := by
  induction sched with
  | nil => intro s h; exact h
  | cons t ts ih =>
    intro s h
    have hstep : run url s (t :: ts) = run url (step url s t) ts := by
      simp [run]
    rw [hstep]
    exact ih (step url s t) (RaceInv_step url s t h)

theorem RaceInv_init (url : URL) (p : Provider)
    (h0 : alookup url p.httpxClients = none) : RaceInv url (initSys p) := by
  refine ⟨?_, ?_, ?_, ?_, ?_⟩
  · intro b hb
    exfalso
    rcases hb with hbb | ⟨c, hbb⟩ <;> cases b <;> simp [initSys, Sys.task] at hbb
  · intro b c hc
    exfalso
    cases b <;> simp [initSys, Sys.task] at hc
  · intro b c hc
    exfalso
    cases b <;> simp [initSys, Sys.task] at hc
  · intro b
    cases b <;> simp [initSys, Sys.task]
  · show countKey url p.httpxClients ≤ 1
    rw [alookup_none_countKey h0]
    exact Nat.zero_le 1

/-- C3: under every cooperative interleaving of two concurrent
`ensure_client(url)` callers — with the spec's per-key creation guard held
across the check-then-insert sequence, and the client construction suspension
in between — the registry never holds two clients for the key (at most one
entry after any schedule), and whenever both callers have completed they hold
the identical client, which is the registry's entry for the key. -/
theorem ensure_client_race_free (p : Provider) (url : URL) (sched : List Bool)
    (h0 : alookup url p.httpxClients = none)
    (hd0 : (run url (initSys p) sched).task0.pc = .done)
    (hd1 : (run url (initSys p) sched).task1.pc = .done) :
    (run url (initSys p) sched).task0.result =
      (run url (initSys p) sched).task1.result ∧
    (∃ c, (run url (initSys p) sched).task0.result = some c ∧
      alookup url (run url (initSys p) sched).prov.httpxClients = some c) ∧
    countKey url (run url (initSys p) sched).prov.httpxClients ≤ 1 := by
  have hinv := RaceInv_run url sched (initSys p) (RaceInv_init url p h0)
  have ht0 : (run url (initSys p) sched).task false =
      (run url (initSys p) sched).task0 := rfl
  have ht1 : (run url (initSys p) sched).task true =
      (run url (initSys p) sched).task1 := rfl
  have r0 : ((run url (initSys p) sched).task false).result.isSome := by
    rw [ht0]
    exact (hinv.doneRes false).mp (by rw [ht0]; exact hd0)
  have r1 : ((run url (initSys p) sched).task true).result.isSome := by
    rw [ht1]
    exact (hinv.doneRes true).mp (by rw [ht1]; exact hd1)
  obtain ⟨c0, hc0⟩ := Option.isSome_iff_exists.mp r0
  obtain ⟨c1, hc1⟩ := Option.isSome_iff_exists.mp r1
  have hl0 := hinv.resLook false c0 hc0
  have hl1 := hinv.resLook true c1 hc1
  have hcc : c0 = c1 := by
    rw [hl0] at hl1
    exact (Option.some.injEq _ _).mp hl1
  rw [ht0] at hc0
  rw [ht1] at hc1
  refine ⟨?_, ⟨c0, hc0, hl0⟩, hinv.oneKey⟩
  rw [hc0, hc1, hcc]

/-- The schedule where caller 0 runs its whole guarded section first and caller
1 then enters and hits the cache. -/
def schedW : List Bool := [false, false, false, true, true]

/-- Witness for C3: on a fresh provider, under `schedW` both callers complete
and the race-freedom theorem applies at this concrete schedule. -/
theorem ensure_client_race_free_witness :
    (run "https://a" (initSys pFresh) schedW).task0.pc = TaskPC.done ∧
    (run "https://a" (initSys pFresh) schedW).task1.pc = TaskPC.done ∧
    (run "https://a" (initSys pFresh) schedW).task0.result =
      (run "https://a" (initSys pFresh) schedW).task1.result ∧
    countKey "https://a" (run "https://a" (initSys pFresh) schedW).prov.httpxClients ≤ 1 := by
  refine ⟨by decide, by decide, ?_, ?_⟩
  · exact (ensure_client_race_free pFresh "https://a" schedW rfl (by decide) (by decide)).1
  · exact (ensure_client_race_free pFresh "https://a" schedW rfl (by decide) (by decide)).2.2
